import Mathlib

/-!
Verification development for the Rag_Hospital service (src/app.py).

The program is a Flask retrieval-augmented QA service.  Its per-request core
consists of three functions, embedded below:

* retrieve_context (app.py lines 39-42): encodes the query with the sentence
  embedder, searches the faiss index for the top-k nearest stored vectors and
  returns the corresponding entries of the global documents list;
* generate_answer (app.py lines 52-74): retrieves context, interpolates it and
  the question into a fixed prompt template and calls the generation provider,
  returning the trimmed response text;
* chat (app.py lines 511-524): the /api/chat endpoint, validating that a
  question was provided and converting exceptions into HTTP 500 responses.

External collaborators (the sentence embedder and the generation model) are
black-box functions; a call that raises a Python exception is modelled as
returning Except.error.  The process-wide globals (documents list and faiss
index) are an explicit ServerState value threaded through each operation, so
that frame properties (the state is never written) are statable.
-/

namespace RagHospital

/-- The process-wide read-only globals of app.py: the documents list
(hospital_docs.json) and the vectors stored in the faiss index
(hospital_index.faiss), listed in insertion order, parallel to documents. -/
structure ServerState where
  documents : List String
  index : List (List ℚ)
deriving DecidableEq

/-- Inner product of two vectors, used as the faiss similarity score: the
embedder is called with normalize_embeddings=True, so inner product on the
stored vectors is cosine similarity. -/
def dot (a b : List ℚ) : ℚ := (List.zipWith (· * ·) a b).sum

/-- Ranking order used to model similarity search: higher score first,
ties broken by insertion (corpus) order. -/
def rankLE {β : Type} [LinearOrder β] (a b : Nat × β) : Prop :=
  b.2 < a.2 ∨ (a.2 = b.2 ∧ a.1 ≤ b.1)

instance {β : Type} [LinearOrder β] : DecidableRel (@rankLE β _) :=
  fun a b => by unfold rankLE; infer_instance

instance {β : Type} [LinearOrder β] : IsTotal (Nat × β) rankLE where
  total a b := by
    unfold rankLE
    rcases lt_trichotomy a.2 b.2 with h | h | h
    · exact Or.inr (Or.inl h)
    · rcases Nat.le_total a.1 b.1 with hn | hn
      · exact Or.inl (Or.inr ⟨h, hn⟩)
      · exact Or.inr (Or.inr ⟨h.symm, hn⟩)
    · exact Or.inl (Or.inl h)

instance {β : Type} [LinearOrder β] : IsTrans (Nat × β) rankLE where
  trans a b c hab hbc := by
    unfold rankLE at *
    rcases hab with h1 | ⟨h1, h1n⟩
    · rcases hbc with h2 | ⟨h2, _⟩
      · exact Or.inl (h2.trans h1)
      · exact Or.inl (h2 ▸ h1)
    · rcases hbc with h2 | ⟨h2, h2n⟩
      · exact Or.inl (h1 ▸ h2)
      · exact Or.inr ⟨h1.trans h2, h1n.trans h2n⟩

/-- The list of (index, score) pairs for indices below n. -/
def scoreList {β : Type} (n : Nat) (f : Nat → β) : List (Nat × β) :=
  (List.range n).map fun i => (i, f i)

/-- The ranked valid labels of the faiss search: score every stored vector by
inner product with the query vector and take the positions of the min(k, n)
best, best first, ties by insertion order. -/
def rankedIdx (vecs : List (List ℚ)) (q : List ℚ) (k : Nat) : List Nat :=
  (((scoreList vecs.length fun i => dot (vecs.getD i []) q).insertionSort rankLE).take k).map
    Prod.fst

/-- Model of the faiss call index.search(query_emb, k): the label row always
has exactly k entries — the ranked valid labels followed by -1 padding when
fewer than k vectors are stored (documented faiss behaviour). -/
def indexSearch (vecs : List (List ℚ)) (q : List ℚ) (k : Nat) : List Int :=
  List.map (fun i => Int.ofNat i) (rankedIdx vecs q k) ++
    List.replicate (k - (rankedIdx vecs q k).length) (-1)

/-- The effective position of Python index i into a list of length n: a
negative index counts from the end. -/
def pyIdx (n : Nat) (i : Int) : Int :=
  if i < 0 then (n : Int) + i else i

/-- Python list indexing documents[i]: a negative index wraps from the end
(so -1 is the last element); an index out of range raises IndexError. -/
def pyGet (l : List String) (i : Int) : Except String String :=
  if 0 ≤ pyIdx l.length i ∧ pyIdx l.length i < (l.length : Int) then
    .ok (l.getD (pyIdx l.length i).toNat "")
  else
    .error "IndexError"

/-- The list comprehension [documents[i] for i in indices[0]] of app.py:42:
look every label up in order; the first out-of-range label raises. -/
def pyGetAll (l : List String) : List Int → Except String (List String)
  | [] => .ok []
  | i :: is =>
    match pyGet l i with
    | .error e => .error e
    | .ok t =>
      match pyGetAll l is with
      | .error e => .error e
      | .ok ts => .ok (t :: ts)

/-- app.py lines 39-42.  retrieve_context(query, k=5): embed the query, search
the index (always k labels, -1-padded), and build the document list with
Python indexing — on a corpus smaller than k the -1 labels repeat the last
document, and on an empty corpus the lookup raises IndexError.  The embedder
is a black-box provider; if it raises, the exception propagates (there is no
try/except in the source), modelled by returning the error.  The globals are
read, never written, so the state comes back unchanged. -/
def retrieve_context (embedder : String → Except String (List ℚ)) (s : ServerState)
    (query : String) (k : Nat := 5) : Except String (List String) × ServerState :=
  match embedder query with
  | .error e => (.error e, s)
  | .ok qv =>
    match pyGetAll s.documents (indexSearch s.index qv k) with
    | .error e => (.error e, s)
    | .ok texts => (.ok texts, s)

/-- app.py lines 55-67: the f-string prompt template of generate_answer,
verbatim.  The retrieved context texts are joined with a single space
(the source reads ' '.join(context)). -/
def buildPrompt (context : List String) (query : String) : String :=
  "\nYou are a question-answering system.\nUse ONLY the following context to answer.\nIf the answer is not present, reply exactly: \"I don't know\".\n\nCONTEXT:\n"
    ++ String.intercalate " " context
    ++ "\n\nQUESTION:\n" ++ query ++ "\n\nANSWER:\n"

/-- Model of Python str.strip(): remove leading and trailing whitespace
characters. -/
def strip (s : String) : String :=
  ⟨((s.data.dropWhile Char.isWhitespace).reverse.dropWhile Char.isWhitespace).reverse⟩

/-- app.py lines 55-74, the answer-composition part of generate_answer: build
the prompt from the retrieved texts and the query, call the generation
provider, return the stripped response text.  There is no branch on an empty
context and no try/except.  The Nat component counts calls made to the
generation provider. -/
def composeAnswer (generate : String → Except String String) (context : List String)
    (query : String) : Except String String × Nat :=
  match generate (buildPrompt context query) with
  | .error e => (.error e, 1)
  | .ok text => (.ok (strip text), 1)

/-- app.py lines 52-74.  generate_answer(query): retrieve context (k left at
its default 5), then compose the answer.  A failure inside retrieve_context
propagates before any generation call is made; a generation failure
propagates to the caller. -/
def generate_answer (embedder : String → Except String (List ℚ))
    (generate : String → Except String String) (s : ServerState) (query : String) :
    (Except String String × Nat) × ServerState :=
  match retrieve_context embedder s query with
  | (.error e, s1) => ((.error e, 0), s1)
  | (.ok context, s1) => (composeAnswer generate context query, s1)

/-- The JSON body returned by the /api/chat endpoint: either an answer payload
or an error payload. -/
inductive ChatBody where
  | answer (text : String)
  | error (msg : String)
deriving DecidableEq

/-- app.py lines 511-524.  The /api/chat handler: read the question field
(defaulting to the empty string when absent), reject falsy questions with
HTTP 400, otherwise call generate_answer, converting any escaped exception
into an HTTP 500 whose body carries str(e). -/
def chat (embedder : String → Except String (List ℚ))
    (generate : String → Except String String) (s : ServerState)
    (questionField : Option String) : (Nat × ChatBody) × ServerState :=
  let question := questionField.getD ""
  if question = "" then
    ((400, .error "No question provided"), s)
  else
    match generate_answer embedder generate s question with
    | ((.ok a, _), s1) => ((200, .answer a), s1)
    | ((.error e, _), s1) => ((500, .error e), s1)

/-- Modelled from the spec: helper for the keyword scorer — whether the first
list is an initial segment of the second (Boolean, by character equality). -/
def leadsWith : List Char → List Char → Bool
  | [], _ => true
  | _ :: _, [] => false
  | a :: as, b :: bs => a == b && leadsWith as bs

/-- Modelled from the spec: fuel-driven body of the occurrence counter; the
fuel is an upper bound on the length of the remaining text. -/
def countOccFuel (needle : List Char) : Nat → List Char → Nat
  | 0, _ => 0
  | _, [] => 0
  | fuel + 1, c :: rest =>
    if needle ≠ [] ∧ leadsWith needle (c :: rest) then
      1 + countOccFuel needle fuel ((c :: rest).drop needle.length)
    else
      countOccFuel needle fuel rest

/-- Modelled from the spec: Python str.count — the number of non-overlapping
occurrences of needle in hay (0 for the empty needle). -/
def countOcc (needle hay : List Char) : Nat :=
  countOccFuel needle hay.length hay

/-- The lower-cased character sequence of a string (Python str.lower()). -/
def lowerData (s : String) : List Char :=
  s.data.map Char.toLower

/-- Modelled from the spec: fuel-driven whitespace splitter over characters;
maximal whitespace-free runs, whitespace runs skipped (Python str.split()). -/
def splitWsFuel : Nat → List Char → List (List Char)
  | 0, _ => []
  | _, [] => []
  | fuel + 1, c :: rest =>
    if c.isWhitespace then
      splitWsFuel fuel rest
    else
      (c :: rest.takeWhile fun d => !d.isWhitespace) ::
        splitWsFuel fuel (rest.dropWhile fun d => !d.isWhitespace)

/-- Modelled from the spec: keyword-mode query tokenization — the keyword
retriever is part of this repository's second implementation, not present
under src/.  The query is lower-cased and split on whitespace runs. -/
def queryTokens (query : String) : List (List Char) :=
  splitWsFuel (lowerData query).length (lowerData query)

/-- Modelled from the spec: the token part of the keyword score — the sum over
query tokens of the substring-occurrence count of the token in the lower-cased
document text. -/
def tokenScore (query doc : String) : Nat :=
  ((queryTokens query).map fun t => countOcc t (lowerData doc)).sum

/-- Modelled from the spec: whether the full lower-cased query string occurs
as a substring of the (lower-cased) document. -/
def phraseHit (query doc : String) : Prop :=
  lowerData query <:+: lowerData doc

instance (query doc : String) : Decidable (phraseHit query doc) := by
  unfold phraseHit; infer_instance

/-- Modelled from the spec: the keyword-mode document score — token occurrence
total plus a flat bonus of 100 on a phrase hit. -/
def keywordScore (query doc : String) : Nat :=
  tokenScore query doc + if phraseHit query doc then 100 else 0

/-- Modelled from the spec: keyword-mode ranking — score every document,
discard the zero scores, sort score-descending with ties broken by corpus
order, and return the document indices in rank order. -/
def keywordRank (docs : List String) (query : String) : List Nat :=
  (((scoreList docs.length fun i => keywordScore query (docs.getD i "")).filter
      fun p => decide (0 < p.2)).insertionSort rankLE).map Prod.fst

/-- Modelled from the spec: keyword-mode retrieval — the texts of the top-k
ranked documents. -/
def keywordSearch (docs : List String) (query : String) (k : Nat) : List String :=
  ((keywordRank docs query).take k).map fun i => docs.getD i ""

/-! Concrete fixtures used to evaluate the embedded operations. -/

/-- A one-document corpus with a one-dimensional unit embedding. -/
def stateOne : ServerState := ⟨["Dr. Smith, Cardiology"], [[1]]⟩

/-- An empty corpus: no documents, no stored vectors. -/
def emptyState : ServerState := ⟨[], []⟩

/-- An embedding provider that always succeeds with the vector [1]. -/
def embedOne : String → Except String (List ℚ) := fun _ => .ok [1]

/-- An embedding provider whose call always raises. -/
def embedFail : String → Except String (List ℚ) := fun _ => .error "embedding provider down"

/-- A generation provider whose call always raises. -/
def genFail : String → Except String String := fun _ => .error "network error"

/-- A generation provider that always succeeds (with padded whitespace). -/
def genOk : String → Except String String := fun _ => .ok " generated text "

/-- A five-document corpus with one-dimensional embeddings. -/
def state5 : ServerState :=
  ⟨["Doc zero", "Doc one", "Doc two", "Doc three", "Doc four"],
    [[1], [2], [3], [4], [5]]⟩

/-- The tail of a separator join: joinTail sep [a, b] is sep ++ a ++ sep ++ b,
so that String.intercalate sep (x :: xs) = x ++ joinTail sep xs. -/
def joinTail (sep : String) : List String → String
  | [] => ""
  | a :: as => sep ++ a ++ joinTail sep as

/-! Helper lemmas. -/

theorem retrieve_context_snd (embedder : String → Except String (List ℚ)) (s : ServerState)
    (query : String) (k : Nat) : (retrieve_context embedder s query k).2 = s := by
  unfold retrieve_context
  cases embedder query with
  | error e => rfl
  | ok qv =>
    dsimp only
    cases pyGetAll s.documents (indexSearch s.index qv k) <;> rfl

theorem generate_answer_snd (embedder : String → Except String (List ℚ))
    (generate : String → Except String String) (s : ServerState) (query : String) :
    (generate_answer embedder generate s query).2 = s := by
  unfold generate_answer
  have h := retrieve_context_snd embedder s query 5
  rcases hrc : retrieve_context embedder s query with ⟨res, s1⟩
  rw [hrc] at h
  cases res with
  | error e => simpa using h
  | ok ctx => simpa using h

theorem mem_scoreList {β : Type} {n : Nat} {f : Nat → β} {p : Nat × β} :
    p ∈ scoreList n f ↔ p.1 < n ∧ p.2 = f p.1 := by
  unfold scoreList
  constructor
  · rintro hp
    rcases List.mem_map.mp hp with ⟨i, hi, rfl⟩
    exact ⟨List.mem_range.mp hi, rfl⟩
  · rintro ⟨h1, h2⟩
    exact List.mem_map.mpr ⟨p.1, List.mem_range.mpr h1, by rw [← h2]⟩

theorem scoreList_map_fst {β : Type} (n : Nat) (f : Nat → β) :
    (scoreList n f).map Prod.fst = List.range n := by
  simp [scoreList, List.map_map, Function.comp_def]

/-- In a list sorted by the ranking order, a strictly higher score sits at a
strictly earlier position. -/
theorem rank_pos_lt {β : Type} [LinearOrder β] {L : List (Nat × β)}
    (hs : List.Pairwise (rankLE (β := β)) L) {i j : Nat} (hi : i < L.length)
    (hj : j < L.length) (h : (L.get ⟨j, hj⟩).2 < (L.get ⟨i, hi⟩).2) : i < j := by
  by_contra hij
  push_neg at hij
  rcases Nat.lt_or_ge j i with hji | hji
  · have := (List.pairwise_iff_get.mp hs) ⟨j, hj⟩ ⟨i, hi⟩ hji
    unfold rankLE at this
    rcases this with hlt | ⟨heq, _⟩
    · exact absurd h (lt_asymm hlt)
    · exact absurd heq (ne_of_lt h)
  · have : i = j := Nat.le_antisymm hji hij
    subst this
    exact lt_irrefl _ h

theorem getD_mem_of_lt {α : Type} {l : List α} {i : Nat} {d : α} (h : i < l.length) :
    l.getD i d ∈ l := by
  rw [List.getD_eq_getElem?_getD, List.getElem?_eq_getElem h]
  exact List.getElem_mem h

/-- The ranked valid labels number at most k, have no duplicates, and are all
positions of the stored corpus. -/
theorem rankedIdx_spec (vecs : List (List ℚ)) (q : List ℚ) (k : Nat) :
    (rankedIdx vecs q k).length ≤ k ∧ (rankedIdx vecs q k).Nodup ∧
    ∀ i ∈ rankedIdx vecs q k, i < vecs.length := by
  unfold rankedIdx
  set l0 := scoreList vecs.length fun i => dot (vecs.getD i []) q with hl0
  set L := l0.insertionSort rankLE with hL
  have h1 : List.Perm (L.map Prod.fst) (List.range vecs.length) := by
    have h2 : List.Perm (L.map Prod.fst) (l0.map Prod.fst) :=
      (List.perm_insertionSort (rankLE (β := ℚ)) l0).map _
    rw [hl0, scoreList_map_fst] at h2
    exact h2
  have hnd : (L.map Prod.fst).Nodup := h1.symm.nodup (List.nodup_range _)
  rw [List.map_take]
  refine ⟨?_, ?_, ?_⟩
  · rw [List.length_take]
    exact Nat.min_le_left _ _
  · exact (List.take_sublist k _).nodup hnd
  · intro i hi
    have := h1.mem_iff.mp (List.mem_of_mem_take hi)
    exact List.mem_range.mp this

theorem rankedIdx_length (vecs : List (List ℚ)) (q : List ℚ) (k : Nat) :
    (rankedIdx vecs q k).length = min k vecs.length := by
  unfold rankedIdx
  rw [List.length_map, List.length_take, List.length_insertionSort]
  unfold scoreList
  rw [List.length_map, List.length_range]

/-- The faiss label row always has exactly k entries. -/
theorem indexSearch_length (vecs : List (List ℚ)) (q : List ℚ) (k : Nat) :
    (indexSearch vecs q k).length = k := by
  have h := rankedIdx_length vecs q k
  have h2 : (rankedIdx vecs q k).length ≤ k := by
    rw [h]
    exact Nat.min_le_left _ _
  unfold indexSearch
  rw [List.length_append, List.length_map, List.length_replicate]
  omega

/-- Every faiss label is either the -1 padding or a valid corpus position. -/
theorem indexSearch_labels (vecs : List (List ℚ)) (q : List ℚ) (k : Nat) :
    ∀ lab ∈ indexSearch vecs q k, lab = -1 ∨ (0 ≤ lab ∧ lab < (vecs.length : Int)) := by
  intro lab hlab
  unfold indexSearch at hlab
  rcases List.mem_append.mp hlab with h | h
  · rcases List.mem_map.mp h with ⟨i, hi, rfl⟩
    have hi2 := (rankedIdx_spec vecs q k).2.2 i hi
    rw [Int.ofNat_eq_natCast]
    exact Or.inr ⟨Int.natCast_nonneg i, by exact_mod_cast hi2⟩
  · exact Or.inl (List.eq_of_mem_replicate h)

/-- With no padding needed (k within the corpus), the label row is exactly the
ranked valid labels. -/
theorem indexSearch_eq_ranked (vecs : List (List ℚ)) (q : List ℚ) (k : Nat)
    (hk : k ≤ vecs.length) :
    indexSearch vecs q k = List.map (fun i => Int.ofNat i) (rankedIdx vecs q k) := by
  have h := rankedIdx_length vecs q k
  have h0 : k - (rankedIdx vecs q k).length = 0 := by
    rw [h]
    omega
  unfold indexSearch
  rw [h0]
  simp

/-- The effective position of a nonnegative in-range index is itself. -/
theorem pyIdx_nonneg {n : Nat} {i : Int} (h0 : 0 ≤ i) : pyIdx n i = i := by
  unfold pyIdx
  rw [if_neg (not_lt.mpr h0)]

theorem pyGet_nonneg {l : List String} {i : Int} (h0 : 0 ≤ i) (h1 : i < (l.length : Int)) :
    pyGet l i = .ok (l.getD i.toNat "") := by
  unfold pyGet
  rw [pyIdx_nonneg h0, if_pos ⟨h0, h1⟩]

theorem pyGet_neg_one {l : List String} (hl : l ≠ []) :
    pyGet l (-1) = .ok (l.getD (l.length - 1) "") := by
  have hlen : 0 < l.length := List.length_pos.mpr hl
  have hj : pyIdx l.length (-1) = (l.length : Int) - 1 := by
    unfold pyIdx
    rw [if_pos (by norm_num : (-1 : Int) < 0)]
    omega
  have ht : ((l.length : Int) - 1).toNat = l.length - 1 := by omega
  unfold pyGet
  rw [hj, if_pos (by constructor <;> omega), ht]

/-- Looking up any label in an empty documents list raises. -/
theorem pyGet_nil_err (i : Int) : pyGet ([] : List String) i = .error "IndexError" := by
  unfold pyGet
  rw [if_neg]
  rintro ⟨h1, h2⟩
  simp only [List.length_nil, Nat.cast_zero] at h1 h2
  omega

/-- The comprehension over a non-empty label row on an empty documents list
raises IndexError. -/
theorem pyGetAll_nil_err (idx : List Int) (hne : idx ≠ []) :
    pyGetAll ([] : List String) idx = .error "IndexError" := by
  cases idx with
  | nil => exact absurd rfl hne
  | cons i is => simp [pyGetAll, pyGet_nil_err]

/-- When every label is a valid nonnegative position, the comprehension
returns exactly the documents at those positions. -/
theorem pyGetAll_nonneg (l : List String) (idx : List Int)
    (h : ∀ i ∈ idx, 0 ≤ i ∧ i < (l.length : Int)) :
    pyGetAll l idx = .ok (idx.map fun i => l.getD i.toNat "") := by
  induction idx with
  | nil => rfl
  | cons i is ih =>
    obtain ⟨h0, h1⟩ := h i (List.mem_cons_self i is)
    have hrest := ih fun j hj => h j (List.mem_cons_of_mem i hj)
    simp [pyGetAll, pyGet_nonneg h0 h1, hrest]

/-- On a non-empty documents list every -1-or-valid label resolves, so the
comprehension succeeds with one text per label. -/
theorem pyGetAll_valid (l : List String) (hl : l ≠ []) (idx : List Int)
    (h : ∀ i ∈ idx, i = -1 ∨ (0 ≤ i ∧ i < (l.length : Int))) :
    ∃ ts, pyGetAll l idx = .ok ts ∧ ts.length = idx.length := by
  induction idx with
  | nil => exact ⟨[], rfl, rfl⟩
  | cons i is ih =>
    obtain ⟨ts, hts, hlen⟩ := ih fun j hj => h j (List.mem_cons_of_mem i hj)
    have hok : ∃ t, pyGet l i = .ok t := by
      rcases h i (List.mem_cons_self i is) with rfl | ⟨h0, h1⟩
      · exact ⟨_, pyGet_neg_one hl⟩
      · exact ⟨_, pyGet_nonneg h0 h1⟩
    obtain ⟨t, ht⟩ := hok
    refine ⟨t :: ts, ?_, by simp [hlen]⟩
    simp [pyGetAll, ht, hts]

/-- Characterization of the filtered keyword score list. -/
theorem mem_keyword_base {docs : List String} {query : String} {p : Nat × Nat} :
    p ∈ (scoreList docs.length fun i => keywordScore query (docs.getD i "")).filter
        (fun p => decide (0 < p.2)) ↔
      p.1 < docs.length ∧ p.2 = keywordScore query (docs.getD p.1 "") ∧ 0 < p.2 := by
  rw [List.mem_filter, mem_scoreList]
  simp [and_assoc]

theorem seg_refl {α : Type} (l : List α) : l <:+: l :=
  ⟨[], [], by simp⟩

theorem seg_append_left {α : Type} {l m : List α} (n : List α) (h : l <:+: m) :
    l <:+: m ++ n := by
  rcases h with ⟨s, t, hst⟩
  exact ⟨s, t ++ n, by rw [← hst]; simp⟩

theorem seg_append_right {α : Type} {l m : List α} (n : List α) (h : l <:+: m) :
    l <:+: n ++ m := by
  rcases h with ⟨s, t, hst⟩
  exact ⟨n ++ s, t, by rw [← hst]; simp⟩

/-! Claims. -/

/-- C3 counterexample: when the per-request embedding call fails,
retrieve_context does not fall back to keyword scoring and does not return a
result list; the provider error propagates out of retrieval. -/
theorem embed_failure_no_fallback_cex :
    (retrieve_context embedFail stateOne "when can I visit" 5).1 =
        .error "embedding provider down" ∧
    ∀ l : List String,
      (retrieve_context embedFail stateOne "when can I visit" 5).1 ≠ .ok l := by
  refine ⟨rfl, fun l h => ?_⟩
  rw [show (retrieve_context embedFail stateOne "when can I visit" 5).1 =
      .error "embedding provider down" from rfl] at h
  exact Except.noConfusion h

/-- C3 amended: in semantic mode, if the per-request embedding-provider call
fails with error e, retrieve_context propagates exactly that error to its
caller (and leaves the state unchanged); there is no keyword-mode fallback. -/
theorem embed_failure_propagates (embedder : String → Except String (List ℚ))
    (s : ServerState) (q : String) (k : Nat) (e : String) (h : embedder q = .error e) :
    retrieve_context embedder s q k = (.error e, s) := by
  unfold retrieve_context
  rw [h]

/-- Witness for the amended C3 at a concrete failing provider. -/
theorem embed_failure_propagates_witness :
    embedFail "visit" = .error "embedding provider down" ∧
    retrieve_context embedFail stateOne "visit" 5 =
      (.error "embedding provider down", stateOne) :=
  ⟨rfl, embed_failure_propagates embedFail stateOne "visit" 5 "embedding provider down" rfl⟩

/-- C4 counterexample: on a one-document corpus with the default k = 5, the
faiss label row is -1-padded, the padding wraps to the last document, and
retrieval returns the same document five times — duplicate indices among the
results; on an empty corpus retrieval raises IndexError instead of returning
a list. -/
theorem retrieve_topk_cex :
    indexSearch stateOne.index [1] 5 = [0, -1, -1, -1, -1] ∧
    ¬ ([0, -1, -1, -1, -1] : List Int).Nodup ∧
    (retrieve_context embedOne stateOne "hi").1 =
      .ok ["Dr. Smith, Cardiology", "Dr. Smith, Cardiology", "Dr. Smith, Cardiology",
        "Dr. Smith, Cardiology", "Dr. Smith, Cardiology"] ∧
    ¬ (["Dr. Smith, Cardiology", "Dr. Smith, Cardiology", "Dr. Smith, Cardiology",
        "Dr. Smith, Cardiology", "Dr. Smith, Cardiology"] : List String).Nodup ∧
    (retrieve_context embedOne emptyState "hi").1 = .error "IndexError" :=
  ⟨rfl, by decide, rfl, by decide, rfl⟩

/-- C4 amended: whenever the embedding call succeeds and the corpus holds at
least k documents (k is 5 by default, the value generate_answer uses), no
padding occurs: retrieve_context returns the texts at the ranked indices,
which number exactly k, are pairwise distinct positions of the corpus, and
every returned text is drawn from the documents list.  (For corpora smaller
than k the -1 padding duplicates the last document, and an empty corpus
raises IndexError — see the counterexample.) -/
theorem retrieve_context_topk (embedder : String → Except String (List ℚ))
    (s : ServerState) (q : String) (k : Nat) (qv : List ℚ) (hq : embedder q = .ok qv)
    (hlen : s.index.length = s.documents.length) (hk : k ≤ s.documents.length) :
    (retrieve_context embedder s q k).1 =
        .ok ((rankedIdx s.index qv k).map fun i => s.documents.getD i "") ∧
    (rankedIdx s.index qv k).length = k ∧
    (rankedIdx s.index qv k).Nodup ∧
    (∀ i ∈ rankedIdx s.index qv k, i < s.documents.length) ∧
    ∀ t ∈ (rankedIdx s.index qv k).map fun i => s.documents.getD i "",
      t ∈ s.documents := by
  obtain ⟨h1, h2, h3⟩ := rankedIdx_spec s.index qv k
  have h3' : ∀ i ∈ rankedIdx s.index qv k, i < s.documents.length :=
    fun i hi => hlen ▸ h3 i hi
  have hklen : (rankedIdx s.index qv k).length = k := by
    rw [rankedIdx_length, hlen]
    omega
  refine ⟨?_, hklen, h2, h3', ?_⟩
  · unfold retrieve_context
    rw [hq]
    dsimp only
    rw [indexSearch_eq_ranked s.index qv k (hlen ▸ hk)]
    rw [pyGetAll_nonneg]
    · rw [List.map_map]
      congr 1
    · intro j hj
      rcases List.mem_map.mp hj with ⟨i, hi, rfl⟩
      rw [Int.ofNat_eq_natCast]
      exact ⟨Int.natCast_nonneg i, by exact_mod_cast h3' i hi⟩
  · intro t ht
    rcases List.mem_map.mp ht with ⟨i, hi, rfl⟩
    exact getD_mem_of_lt (h3' i hi)

/-- Witness for the amended C4 on a five-document corpus with k = 5. -/
theorem retrieve_context_topk_witness :
    embedOne "hi" = .ok [1] ∧
    state5.index.length = state5.documents.length ∧
    5 ≤ state5.documents.length ∧
    ((retrieve_context embedOne state5 "hi" 5).1 =
        .ok ((rankedIdx state5.index [1] 5).map fun i => state5.documents.getD i "") ∧
    (rankedIdx state5.index [1] 5).length = 5 ∧
    (rankedIdx state5.index [1] 5).Nodup ∧
    (∀ i ∈ rankedIdx state5.index [1] 5, i < state5.documents.length) ∧
    ∀ t ∈ (rankedIdx state5.index [1] 5).map fun i => state5.documents.getD i "",
      t ∈ state5.documents) :=
  ⟨rfl, rfl, by decide, retrieve_context_topk embedOne state5 "hi" 5 [1] rfl rfl (by decide)⟩

/-- C8: retrieval is deterministic — a second call with the same query against
the state left by the first call returns exactly the same result pair. -/
theorem retrieval_deterministic (embedder : String → Except String (List ℚ))
    (s : ServerState) (q : String) (k : Nat) :
    retrieve_context embedder (retrieve_context embedder s q k).2 q k =
      retrieve_context embedder s q k := by
  rw [retrieve_context_snd]

/-- C9: per-request operations never write the corpus state — both retrieval
and answer generation return the documents list and vector index unchanged. -/
theorem per_request_state_frame (embedder : String → Except String (List ℚ))
    (generate : String → Except String String) (s : ServerState) (q : String) (k : Nat) :
    (retrieve_context embedder s q k).2 = s ∧
    (generate_answer embedder generate s q).2 = s :=
  ⟨retrieve_context_snd embedder s q k, generate_answer_snd embedder generate s q⟩

/-- C10: the chat endpoint answers 400 with body error "No question provided"
exactly when the question field is absent or the empty string; a
whitespace-only question is not rejected and is passed untrimmed to
generate_answer. -/
theorem chat_validation (embedder : String → Except String (List ℚ))
    (generate : String → Except String String) (s : ServerState) :
    (∀ field : Option String,
      ((chat embedder generate s field).1 = (400, ChatBody.error "No question provided") ↔
        field = none ∨ field = some "")) ∧
    (chat embedder generate s (some " ")).1 =
      (match (generate_answer embedder generate s " ").1.1 with
        | .ok a => (200, ChatBody.answer a)
        | .error e => (500, ChatBody.error e)) := by
  constructor
  · intro field
    cases field with
    | none => simp [chat]
    | some q =>
      by_cases hq : q = ""
      · subst hq
        simp [chat]
      · simp only [chat, Option.getD_some, if_neg hq]
        constructor
        · intro h
          rcases hgen : generate_answer embedder generate s q with ⟨⟨res, n⟩, s1⟩
          rw [hgen] at h
          cases res <;> simp at h
        · rintro (h | h)
          · exact absurd h (Option.noConfusion)
          · exact absurd (Option.some.inj h) hq
  · have hq : (" " : String) ≠ "" := by decide
    simp only [chat, Option.getD_some, if_neg hq]
    rcases hgen : generate_answer embedder generate s " " with ⟨⟨res, n⟩, s1⟩
    cases res <;> simp

/-- C1 counterexample: with a failing generation provider, generate_answer
propagates the provider error to its caller instead of returning a fixed
apology string, and the chat endpoint surfaces it as an HTTP 500 error
body carrying the raw provider message. -/
theorem generation_failure_cex :
    (generate_answer embedOne genFail stateOne "hi").1.1 = .error "network error" ∧
    (∀ a : String, (generate_answer embedOne genFail stateOne "hi").1.1 ≠ .ok a) ∧
    (chat embedOne genFail stateOne (some "hi")).1 = (500, ChatBody.error "network error") := by
  refine ⟨rfl, fun a h => ?_, rfl⟩
  rw [show (generate_answer embedOne genFail stateOne "hi").1.1 =
      .error "network error" from rfl] at h
  exact Except.noConfusion h

/-- C1 amended: if retrieval succeeds and the generation provider call fails
with error e, generate_answer propagates exactly that error to its caller;
for a non-empty question the chat endpoint then answers HTTP 500 with the
provider error string — no fixed apology string exists in the code. -/
theorem generation_failure_propagates (embedder : String → Except String (List ℚ))
    (generate : String → Except String String) (s : ServerState) (q : String)
    (ctx : List String) (e : String) (hq : q ≠ "")
    (hret : (retrieve_context embedder s q).1 = .ok ctx)
    (hgen : generate (buildPrompt ctx q) = .error e) :
    (generate_answer embedder generate s q).1.1 = .error e ∧
    (chat embedder generate s (some q)).1 = (500, ChatBody.error e) := by
  have hfull : retrieve_context embedder s q = (.ok ctx, s) := by
    have h2 := retrieve_context_snd embedder s q 5
    rcases hrc : retrieve_context embedder s q with ⟨res, s1⟩
    rw [hrc] at hret h2
    simp only at hret h2
    rw [hret, h2]
  have hga : generate_answer embedder generate s q = ((.error e, 1), s) := by
    unfold generate_answer composeAnswer
    rw [hfull]
    dsimp only
    rw [hgen]
  constructor
  · rw [hga]
  · simp only [chat, Option.getD_some, if_neg hq]
    rw [hga]

/-- Witness for the amended C1 at a concrete failing generation provider (on
the one-document corpus the -1 padding makes retrieval return five copies of
the document). -/
theorem generation_failure_propagates_witness :
    ("hi" : String) ≠ "" ∧
    (retrieve_context embedOne stateOne "hi").1 =
      .ok ["Dr. Smith, Cardiology", "Dr. Smith, Cardiology", "Dr. Smith, Cardiology",
        "Dr. Smith, Cardiology", "Dr. Smith, Cardiology"] ∧
    genFail (buildPrompt ["Dr. Smith, Cardiology", "Dr. Smith, Cardiology",
      "Dr. Smith, Cardiology", "Dr. Smith, Cardiology", "Dr. Smith, Cardiology"] "hi") =
      .error "network error" ∧
    ((generate_answer embedOne genFail stateOne "hi").1.1 = .error "network error" ∧
      (chat embedOne genFail stateOne (some "hi")).1 =
        (500, ChatBody.error "network error")) :=
  ⟨by decide, rfl, rfl,
    generation_failure_propagates embedOne genFail stateOne "hi"
      ["Dr. Smith, Cardiology", "Dr. Smith, Cardiology", "Dr. Smith, Cardiology",
        "Dr. Smith, Cardiology", "Dr. Smith, Cardiology"] "network error"
      (by decide) rfl rfl⟩

/-- C2 counterexample: the answer composer has no empty-context branch — given
an empty list of retrieved texts it still makes one generation-provider call
and returns the provider's stripped text, never a canned message with zero
calls. -/
theorem empty_context_cex :
    composeAnswer genOk [] "q" = (.ok "generated text", 1) ∧
    ∀ msg : String, composeAnswer genOk [] "q" ≠ (.ok msg, 0) := by
  refine ⟨rfl, fun msg h => ?_⟩
  have h2 := congrArg Prod.snd h
  rw [show (composeAnswer genOk [] "q").2 = 1 from rfl] at h2
  exact Nat.noConfusion h2

/-- C2 amended: the composer calls the generation provider exactly once for
every context list — the empty one included — and returns the provider's
stripped output; no canned-message path skips the provider.  Moreover, in
this program retrieval never yields an empty text list: on an empty corpus
the -1 labels raise IndexError before any generation call, and on a corpus
respecting the invariant with at least one document retrieval returns
exactly 5 texts. -/
theorem composer_always_calls (generate : String → Except String String)
    (context : List String) (q : String) (embedder : String → Except String (List ℚ))
    (s : ServerState) (qv : List ℚ) (hq : embedder q = .ok qv)
    (hlen : s.index.length = s.documents.length) :
    (composeAnswer generate context q).2 = 1 ∧
    (composeAnswer generate context q).1 = (generate (buildPrompt context q)).map strip ∧
    (s.documents = [] → (retrieve_context embedder s q).1 = .error "IndexError" ∧
      (generate_answer embedder generate s q).1.2 = 0) ∧
    (s.documents ≠ [] →
      ∃ texts, (retrieve_context embedder s q).1 = .ok texts ∧ texts.length = 5) := by
  have hc : (composeAnswer generate context q).2 = 1 ∧
      (composeAnswer generate context q).1 =
        (generate (buildPrompt context q)).map strip := by
    unfold composeAnswer
    cases hg : generate (buildPrompt context q) <;> simp [hg, Except.map]
  refine ⟨hc.1, hc.2, ?_, ?_⟩
  · intro hnil
    have hne : indexSearch s.index qv 5 ≠ [] := by
      have := indexSearch_length s.index qv 5
      intro hcon
      rw [hcon] at this
      simp at this
    have herr : retrieve_context embedder s q = (.error "IndexError", s) := by
      unfold retrieve_context
      rw [hq]
      dsimp only
      rw [hnil, pyGetAll_nil_err _ hne]
    refine ⟨by rw [herr], ?_⟩
    unfold generate_answer
    rw [herr]
  · intro hne
    obtain ⟨ts, hts, hlen5⟩ := pyGetAll_valid s.documents hne (indexSearch s.index qv 5)
      (by
        intro i hi
        have := indexSearch_labels s.index qv 5 i hi
        rwa [hlen] at this)
    refine ⟨ts, ?_, by rw [hlen5, indexSearch_length]⟩
    unfold retrieve_context
    rw [hq]
    dsimp only
    rw [hts]

/-- Witness for the amended C2: the empty context on the empty corpus. -/
theorem composer_always_calls_witness :
    embedOne "q" = .ok [1] ∧
    emptyState.index.length = emptyState.documents.length ∧
    ((composeAnswer genOk [] "q").2 = 1 ∧
      (composeAnswer genOk [] "q").1 = (genOk (buildPrompt [] "q")).map strip ∧
      (emptyState.documents = [] →
        (retrieve_context embedOne emptyState "q").1 = .error "IndexError" ∧
        (generate_answer embedOne genOk emptyState "q").1.2 = 0) ∧
      (emptyState.documents ≠ [] →
        ∃ texts, (retrieve_context embedOne emptyState "q").1 = .ok texts ∧
          texts.length = 5)) :=
  ⟨rfl, rfl, composer_always_calls genOk [] "q" embedOne emptyState [1] rfl rfl⟩

set_option maxRecDepth 8000 in
/-- C5: for non-empty retrieved context the composed prompt contains the fixed
persona line, the answer-ONLY-from-context instruction, the fixed
I-don't-know sentinel instruction, the joined context block, and the verbatim
query text. -/
theorem prompt_structure (context : List String) (query : String) (_hne : context ≠ []) :
    ("You are a question-answering system." : String).data <:+:
        (buildPrompt context query).data ∧
    ("Use ONLY the following context to answer." : String).data <:+:
        (buildPrompt context query).data ∧
    ("If the answer is not present, reply exactly: \"I don't know\"." : String).data <:+:
        (buildPrompt context query).data ∧
    (String.intercalate " " context).data <:+: (buildPrompt context query).data ∧
    query.data <:+: (buildPrompt context query).data := by
  unfold buildPrompt
  simp only [String.data_append]
  refine ⟨?_, ?_, ?_, ?_, ?_⟩
  · exact seg_append_left _ (seg_append_left _ (seg_append_left _ (seg_append_left _
      (by decide))))
  · exact seg_append_left _ (seg_append_left _ (seg_append_left _ (seg_append_left _
      (by decide))))
  · exact seg_append_left _ (seg_append_left _ (seg_append_left _ (seg_append_left _
      (by decide))))
  · exact seg_append_left _ (seg_append_left _ (seg_append_left _ (seg_append_right _
      (seg_refl _))))
  · exact seg_append_left _ (seg_append_right _ (seg_refl _))

/-- Witness for C5 at a concrete context and query. -/
theorem prompt_structure_witness :
    (["Visiting hours are 10am-8pm daily"] : List String) ≠ [] ∧
    (("You are a question-answering system." : String).data <:+:
        (buildPrompt ["Visiting hours are 10am-8pm daily"] "when can I visit").data ∧
    ("Use ONLY the following context to answer." : String).data <:+:
        (buildPrompt ["Visiting hours are 10am-8pm daily"] "when can I visit").data ∧
    ("If the answer is not present, reply exactly: \"I don't know\"." : String).data <:+:
        (buildPrompt ["Visiting hours are 10am-8pm daily"] "when can I visit").data ∧
    (String.intercalate " " ["Visiting hours are 10am-8pm daily"]).data <:+:
        (buildPrompt ["Visiting hours are 10am-8pm daily"] "when can I visit").data ∧
    ("when can I visit" : String).data <:+:
        (buildPrompt ["Visiting hours are 10am-8pm daily"] "when can I visit").data) :=
  ⟨by decide,
    prompt_structure ["Visiting hours are 10am-8pm daily"] "when can I visit" (by decide)⟩

set_option maxRecDepth 8000 in
/-- C6 counterexample: with the two retrieved texts "a" and "b" the prompt
contains the single-space join "a b" and does not contain the
blank-line-separated block — the texts are not joined by an empty line. -/
theorem context_join_cex :
    ¬ (("a\n\nb" : String).data <:+: (buildPrompt ["a", "b"] "q").data) ∧
    ("a b" : String).data <:+: (buildPrompt ["a", "b"] "q").data :=
  ⟨by decide, by decide⟩

theorem seg_trans {α : Type} {l m n : List α} (h1 : l <:+: m) (h2 : m <:+: n) :
    l <:+: n := by
  rcases h1 with ⟨s1, t1, h1⟩
  rcases h2 with ⟨s2, t2, h2⟩
  exact ⟨s2 ++ s1, t1 ++ t2, by rw [← h2, ← h1]; simp [List.append_assoc]⟩

theorem intercalate_go_eq (sep acc : String) (l : List String) :
    String.intercalate.go acc sep l = acc ++ joinTail sep l := by
  induction l generalizing acc with
  | nil => simp [String.intercalate.go, joinTail]
  | cons a as ih => simp [String.intercalate.go, joinTail, ih, String.append_assoc]

theorem intercalate_cons_eq (sep x : String) (xs : List String) :
    String.intercalate sep (x :: xs) = x ++ joinTail sep xs := by
  simp [String.intercalate, intercalate_go_eq]

theorem joinTail_adjacent (sep a b : String) (pre post : List String) :
    (a ++ sep ++ b).data <:+: (joinTail sep (pre ++ a :: b :: post)).data := by
  induction pre with
  | nil =>
    refine ⟨sep.data, (joinTail sep post).data, ?_⟩
    simp [joinTail, String.data_append, List.append_assoc]
  | cons p pre' ih =>
    have h := seg_append_right ((sep ++ p).data) ih
    simpa [joinTail, String.data_append, List.append_assoc] using h

theorem intercalate_adjacent (a b : String) (pre post : List String) :
    (a ++ " " ++ b).data <:+: (String.intercalate " " (pre ++ a :: b :: post)).data := by
  cases pre with
  | nil =>
    rw [List.nil_append, intercalate_cons_eq]
    refine ⟨[], (joinTail " " post).data, ?_⟩
    simp [joinTail, String.data_append, List.append_assoc]
  | cons p pre' =>
    rw [List.cons_append, intercalate_cons_eq]
    have h := seg_append_right p.data (joinTail_adjacent " " a b pre' post)
    simpa [String.data_append] using h

/-- C6 amended: for every non-empty list of retrieved document texts, the
composer joins the texts with a single space separator to form the context
block of the prompt — the prompt contains the space-join of the whole list,
and any two adjacent texts appear in it separated by one space character
(not by an empty line). -/
theorem context_join_space (context : List String) (query : String) (_hne : context ≠ []) :
    (String.intercalate " " context).data <:+: (buildPrompt context query).data ∧
    ∀ (a b : String) (pre post : List String), context = pre ++ a :: b :: post →
      (a ++ " " ++ b).data <:+: (buildPrompt context query).data := by
  constructor
  · unfold buildPrompt
    simp only [String.data_append]
    exact seg_append_left _ (seg_append_left _ (seg_append_left _ (seg_append_right _
      (seg_refl _))))
  · rintro a b pre post rfl
    have h1 := intercalate_adjacent a b pre post
    have h2 : (String.intercalate " " (pre ++ a :: b :: post)).data <:+:
        (buildPrompt (pre ++ a :: b :: post) query).data := by
      unfold buildPrompt
      simp only [String.data_append]
      exact seg_append_left _ (seg_append_left _ (seg_append_left _ (seg_append_right _
        (seg_refl _))))
    exact seg_trans h1 h2

/-- Witness for the amended C6 on a three-text context. -/
theorem context_join_space_witness :
    (["Doc zero", "Doc one", "Doc two"] : List String) ≠ [] ∧
    ((String.intercalate " " ["Doc zero", "Doc one", "Doc two"]).data <:+:
        (buildPrompt ["Doc zero", "Doc one", "Doc two"] "q").data ∧
      ∀ (a b : String) (pre post : List String),
        ["Doc zero", "Doc one", "Doc two"] = pre ++ a :: b :: post →
        (a ++ " " ++ b).data <:+: (buildPrompt ["Doc zero", "Doc one", "Doc two"] "q").data) :=
  ⟨by decide, context_join_space ["Doc zero", "Doc one", "Doc two"] "q" (by decide)⟩

/-- C7: in keyword mode, a document containing the exact lower-cased query
phrase receives the flat +100 bonus and is ranked strictly above any document
with no phrase match and an equal or lower token-occurrence count. -/
theorem keyword_phrase_bonus_outranks (docs : List String) (query : String)
    (iA iB : Nat) (hA : iA < docs.length) (_hB : iB < docs.length)
    (hPA : phraseHit query (docs.getD iA ""))
    (hPB : ¬ phraseHit query (docs.getD iB ""))
    (hTok : tokenScore query (docs.getD iB "") ≤ tokenScore query (docs.getD iA "")) :
    keywordScore query (docs.getD iA "") = tokenScore query (docs.getD iA "") + 100 ∧
    keywordScore query (docs.getD iB "") < keywordScore query (docs.getD iA "") ∧
    iA ∈ keywordRank docs query ∧
    ∀ (pA pB : Nat) (hpA : pA < (keywordRank docs query).length)
      (hpB : pB < (keywordRank docs query).length),
      (keywordRank docs query).get ⟨pA, hpA⟩ = iA →
      (keywordRank docs query).get ⟨pB, hpB⟩ = iB → pA < pB := by
  have hsA : keywordScore query (docs.getD iA "") =
      tokenScore query (docs.getD iA "") + 100 := by
    unfold keywordScore
    rw [if_pos hPA]
  have hsB : keywordScore query (docs.getD iB "") = tokenScore query (docs.getD iB "") := by
    unfold keywordScore
    rw [if_neg hPB]
    omega
  have hlt : keywordScore query (docs.getD iB "") < keywordScore query (docs.getD iA "") := by
    rw [hsA, hsB]
    omega
  refine ⟨hsA, hlt, ?_, ?_⟩
  · have hmem : (iA, keywordScore query (docs.getD iA "")) ∈
        (scoreList docs.length fun i => keywordScore query (docs.getD i "")).filter
          (fun p => decide (0 < p.2)) := by
      apply List.mem_filter.mpr
      refine ⟨mem_scoreList.mpr ⟨hA, rfl⟩, ?_⟩
      simp only [decide_eq_true_eq]
      omega
    unfold keywordRank
    apply List.mem_map.mpr
    exact ⟨(iA, keywordScore query (docs.getD iA "")),
      (List.perm_insertionSort _ _).mem_iff.mpr hmem, rfl⟩
  · intro pA pB hpA hpB hgA hgB
    unfold keywordRank at hpA hpB hgA hgB
    set fl := (scoreList docs.length fun i => keywordScore query (docs.getD i "")).filter
      (fun p => decide (0 < p.2)) with hfldef
    set L := fl.insertionSort rankLE with hLdef
    have hpA' : pA < L.length := by simpa using hpA
    have hpB' : pB < L.length := by simpa using hpB
    have hgA2 : (L.get ⟨pA, hpA'⟩).1 = iA := by
      rw [List.get_eq_getElem] at hgA ⊢
      rw [List.getElem_map] at hgA
      exact hgA
    have hgB2 : (L.get ⟨pB, hpB'⟩).1 = iB := by
      rw [List.get_eq_getElem] at hgB ⊢
      rw [List.getElem_map] at hgB
      exact hgB
    have hscoreA : (L.get ⟨pA, hpA'⟩).2 = keywordScore query (docs.getD iA "") := by
      have hm : L.get ⟨pA, hpA'⟩ ∈ fl :=
        (List.perm_insertionSort _ _).mem_iff.mp (List.get_mem L pA hpA')
      have := (mem_keyword_base.mp hm).2.1
      rw [hgA2] at this
      exact this
    have hscoreB : (L.get ⟨pB, hpB'⟩).2 = keywordScore query (docs.getD iB "") := by
      have hm : L.get ⟨pB, hpB'⟩ ∈ fl :=
        (List.perm_insertionSort _ _).mem_iff.mp (List.get_mem L pB hpB')
      have := (mem_keyword_base.mp hm).2.1
      rw [hgB2] at this
      exact this
    have hsort : List.Pairwise (rankLE (β := Nat)) L := List.sorted_insertionSort rankLE fl
    exact rank_pos_lt hsort hpA' hpB' (by rw [hscoreA, hscoreB]; exact hlt)

/-- Fixture documents for the keyword-ranking witness. -/
def kwDocs : List String := ["Visiting hours are 10am-8pm daily", "hours hours"]

set_option maxRecDepth 8000 in
/-- Witness for C7: "Visiting hours are 10am-8pm daily" contains the phrase
"visiting hours", "hours hours" has only token matches of equal count. -/
theorem keyword_phrase_bonus_outranks_witness :
    (0 : Nat) < kwDocs.length ∧
    (1 : Nat) < kwDocs.length ∧
    phraseHit "visiting hours" (kwDocs.getD 0 "") ∧
    ¬ phraseHit "visiting hours" (kwDocs.getD 1 "") ∧
    tokenScore "visiting hours" (kwDocs.getD 1 "") ≤
      tokenScore "visiting hours" (kwDocs.getD 0 "") ∧
    (keywordScore "visiting hours" (kwDocs.getD 0 "") =
        tokenScore "visiting hours" (kwDocs.getD 0 "") + 100 ∧
      keywordScore "visiting hours" (kwDocs.getD 1 "") <
        keywordScore "visiting hours" (kwDocs.getD 0 "") ∧
      0 ∈ keywordRank kwDocs "visiting hours" ∧
      ∀ (pA pB : Nat) (hpA : pA < (keywordRank kwDocs "visiting hours").length)
        (hpB : pB < (keywordRank kwDocs "visiting hours").length),
        (keywordRank kwDocs "visiting hours").get ⟨pA, hpA⟩ = 0 →
        (keywordRank kwDocs "visiting hours").get ⟨pB, hpB⟩ = 1 → pA < pB) :=
  ⟨by decide, by decide, by decide, by decide, by decide,
    keyword_phrase_bonus_outranks kwDocs "visiting hours" 0 1 (by decide) (by decide)
      (by decide) (by decide) (by decide)⟩

end RagHospital
